import Mathlib

/-!
# GymFlow data layer: shallow embedding and verification

This file embeds the correctness-critical parts of the GymFlow client-side
fitness app in Lean 4 and proves (or refutes) the claims of the spec about them:

* the Local Store (`database.js`, `Database` class, schema v3): a keyed,
  auto-incrementing persistent store with "not ready" guards;
* the Remote Store (`firebase-config.js`, `firebaseDB`): a cloud document
  store whose `add` assigns fresh, non-empty string ids;
* the Sync Adapter (`db-adapter.js`, `database` object): routing between the
  two stores, dual writes in cloud mode, `enableCloud`, and `syncToCloud`
  reconciliation;
* the Workouts Manager (`workouts.js`, `WorkoutsManager` class): the
  in-memory workout-execution session state machine.

Asynchronous operations that can reject are embedded as `Except`-valued
functions; I/O failures of the underlying platform (IndexedDB request
errors, Firestore write failures) are injected through explicit `failOn`
oracles on the store states.  Wall-clock timestamps are threaded as explicit
`now : Nat` arguments (milliseconds).  Console logging is not modelled.
-/

namespace GymFlow

/-- A JavaScript id value as returned by the store layers: `null`/`undefined`
(collapsed), an IndexedDB numeric key, or a Firestore document-id string. -/
inductive JsId where
  | null : JsId
  | num (n : Nat) : JsId
  | str (s : String) : JsId
deriving DecidableEq, Repr

/-- JavaScript truthiness of a `JsId`, as used by `if (!item.cloudId)` in
`syncToCloud`: `null`/`undefined`, `0` and the empty string are falsy. -/
def jsTruthy : JsId → Bool
  | .null => false
  | .num n => n != 0
  | .str s => s.length != 0

/-- The collection names of the Local Store schema (`STORES`, database.js v3). -/
inductive StoreName where
  | users | workouts | exercises | history | assessments
  | progress | students | checkins | settings
deriving DecidableEq, Repr, Fintype

/-- The list `Object.values(STORES)` in declaration order (database.js v3). -/
def STORES : List StoreName :=
  [.users, .workouts, .exercises, .history, .assessments,
   .progress, .students, .checkins, .settings]

/-- A stored record.  `id` is the IndexedDB primary key (absent until the
store assigns one), `cloudId` the Remote Store document id mirrored into the
local copy, `payload` stands for the opaque domain fields, and
`createdAt`/`updatedAt` are the timestamps stamped by the stores on write. -/
structure JObj where
  id : Option Nat := none
  cloudId : JsId := .null
  payload : Nat := 0
  createdAt : Option Nat := none
  updatedAt : Option Nat := none
deriving DecidableEq, Repr

/-- One IndexedDB object store: records in insertion order plus the
auto-increment key generator (IndexedDB generators start at 1). -/
structure Collection where
  recs : List JObj := []
  nextId : Nat := 1
deriving DecidableEq, Repr

/-- The Local Store singleton (`db` in database.js v3).  `dbOpen` models
`this.db !== null`; `failOn` is the environment oracle saying which object
stores currently reject write requests (e.g. a `ConstraintError` on the
unique `email` index); `colls` holds the object stores. -/
structure LocalDB where
  dbOpen : Bool := false
  failOn : StoreName → Bool := fun _ => false
  colls : StoreName → Collection := fun _ => {}

namespace LocalDB

/-- Embeds `Database.init`: opens the database (provisioning is schema-only and the
collections all exist in the model).  `ok` models whether `indexedDB.open`
succeeds; on failure the promise rejects. -/
def initOp (l : LocalDB) (ok : Bool) : Except Unit LocalDB :=
  if ok then .ok { l with dbOpen := true } else .error ()

/-- Replace the contents of one object store. -/
def setColl (l : LocalDB) (s : StoreName) (c : Collection) : LocalDB :=
  { l with colls := fun s2 => if s2 = s then c else l.colls s2 }

/-- Embeds `Database.add` (v3): not ready → warn and resolve `null`; otherwise
`store.add({...data, createdAt})` with the key taken from `data.id` when
present (rejecting on a duplicate key) and from the generator otherwise. -/
def addOp (l : LocalDB) (s : StoreName) (data : JObj) (now : Nat) :
    Except Unit (Option Nat × LocalDB) :=
  if !l.dbOpen then .ok (none, l)
  else if l.failOn s then .error ()
  else
    let c := l.colls s
    match data.id with
    | some k =>
        if c.recs.any (fun r => r.id = some k) then .error ()
        else
          .ok (some k, l.setColl s
            { recs := c.recs ++ [{ data with createdAt := some now }],
              nextId := max c.nextId (k + 1) })
    | none =>
        let k := c.nextId
        .ok (some k, l.setColl s
          { recs := c.recs ++ [{ data with id := some k, createdAt := some now }],
            nextId := k + 1 })

/-- Embeds `Database.get` (v3): not ready → warn and resolve `null`; otherwise a
point lookup by primary key. -/
def getOp (l : LocalDB) (s : StoreName) (id : Nat) : Option JObj :=
  if !l.dbOpen then none
  else (l.colls s).recs.find? (fun r => r.id = some id)

/-- Embeds `Database.getAll` (v3): not ready → warn and resolve `[]`. -/
def getAllOp (l : LocalDB) (s : StoreName) : List JObj :=
  if !l.dbOpen then [] else (l.colls s).recs

/-- The value a record holds under an index field name.  The domain fields
of a record are collapsed into `payload` in this model. -/
def fieldVal (o : JObj) (field : String) : JsId :=
  if field = "id" then (match o.id with | some n => .num n | none => .null)
  else if field = "cloudId" then o.cloudId
  else .num o.payload

/-- Embeds `Database.getByIndex` (v3): not ready → warn and resolve `[]`; otherwise
all records whose indexed field equals the value. -/
def getByIndexOp (l : LocalDB) (s : StoreName) (field : String) (v : JsId) :
    List JObj :=
  if !l.dbOpen then []
  else (l.colls s).recs.filter (fun r => fieldVal r field = v)

/-- Embeds `Database.update` (v3): not ready → warn and resolve `null`; otherwise
`store.put({...data, updatedAt})` — replace the record with the same key, or
insert under `data.id` (or a fresh generated key) when absent. -/
def updateOp (l : LocalDB) (s : StoreName) (data : JObj) (now : Nat) :
    Except Unit (Option Nat × LocalDB) :=
  if !l.dbOpen then .ok (none, l)
  else if l.failOn s then .error ()
  else
    let c := l.colls s
    let data2 := { data with updatedAt := some now }
    match data.id with
    | some k =>
        if c.recs.any (fun r => r.id = some k) then
          .ok (some k, l.setColl s
            { c with recs := c.recs.map (fun r => if r.id = some k then data2 else r) })
        else
          .ok (some k, l.setColl s
            { recs := c.recs ++ [data2], nextId := max c.nextId (k + 1) })
    | none =>
        let k := c.nextId
        .ok (some k, l.setColl s
          { recs := c.recs ++ [{ data2 with id := some k }], nextId := k + 1 })

/-- Embeds `Database.delete` (v3): not ready → warn and resolve (undefined);
otherwise delete by key (no error if the key is absent). -/
def deleteOp (l : LocalDB) (s : StoreName) (id : Nat) : Except Unit LocalDB :=
  if !l.dbOpen then .ok l
  else if l.failOn s then .error ()
  else .ok (l.setColl s
    { l.colls s with recs := (l.colls s).recs.filter (fun r => r.id != some id) })

end LocalDB

/-- A Remote Store document: a Firestore-assigned id plus the written data. -/
structure RDoc where
  ref : String
  data : JObj
deriving DecidableEq, Repr

/-- The Firestore document id assigned to the `n`-th `addDoc` call.  Real
Firestore push ids are opaque non-empty strings; freshness is modelled by
the counter. -/
def refStr (n : Nat) : String := "d" ++ Nat.repr n

/-- The Remote Store (`firebaseDB` in firebase-config.js).  `failOn` is the
environment oracle for which collections currently reject writes
(network/auth/rules failures). -/
structure RemoteDB where
  failOn : StoreName → Bool := fun _ => false
  docs : StoreName → List RDoc := fun _ => []
  nextRef : Nat := 0

namespace RemoteDB

/-- Embeds `firebaseDB.add`: `addDoc(collection, {...data, createdAt})`, resolving
with the cloud-assigned document id. -/
def addOp (r : RemoteDB) (s : StoreName) (data : JObj) (now : Nat) :
    Except Unit (String × RemoteDB) :=
  if r.failOn s then .error ()
  else
    .ok (refStr r.nextRef,
      { r with
        docs := fun s2 =>
          if s2 = s then
            r.docs s2 ++ [⟨refStr r.nextRef, { data with createdAt := some now }⟩]
          else r.docs s2,
        nextRef := r.nextRef + 1 })

/-- Embeds `firebaseDB.update`: `updateDoc(doc(db, name, String(data.id)), {...data,
updatedAt})`.  `updateDoc` rejects when the addressed document does not
exist; note the document path is built from the *local* id of the record. -/
def updateOp (r : RemoteDB) (s : StoreName) (data : JObj) (now : Nat) :
    Except Unit RemoteDB :=
  if r.failOn s then .error ()
  else
    let key := match data.id with | some k => Nat.repr k | none => "undefined"
    if (r.docs s).any (fun d => d.ref = key) then
      .ok { r with
        docs := fun s2 =>
          if s2 = s then
            (r.docs s2).map (fun d =>
              if d.ref = key then ⟨d.ref, { data with updatedAt := some now }⟩ else d)
          else r.docs s2 }
    else .error ()

end RemoteDB

/-- The `dbConfig` object of db-adapter.js. -/
structure DbConfig where
  useCloud : Bool
  isFirebaseReady : Bool

/-- The Sync Adapter module state (db-adapter.js): the config object, the
module-level `firebaseModule` (modelled as "has the dynamic import
succeeded") and `useFirebase` flags, and the two backing stores. -/
structure Adapter where
  cfg : DbConfig
  firebaseModule : Bool
  useFirebase : Bool
  localDB : LocalDB
  remote : RemoteDB

namespace database

/-- Embeds `initDatabase` (db-adapter.js, cloud-enabled revision): always init the
local store first; if `useCloud`, dynamically import firebase-config and run
`initFirebase()`.  `initFirebase` never throws — it returns a success
boolean (`handshakeOk`) — but this revision does not check that boolean, so
only a failure of the import itself (`importOk = false`) lands in the
`catch` that falls back to local-only mode. -/
def initDatabase (a : Adapter) (localInitOk importOk handshakeOk : Bool) :
    Except Unit Adapter :=
  match a.localDB.initOp localInitOk with
  | .error e => .error e
  | .ok l =>
    let a2 := { a with localDB := l }
    if a2.cfg.useCloud then
      if importOk then
        -- `await firebaseModule.initFirebase(); useFirebase = true;`
        -- (the `handshakeOk` result of initFirebase is ignored here)
        .ok { a2 with firebaseModule := true, useFirebase := true,
                      cfg := { a2.cfg with isFirebaseReady := true } }
      else
        -- the dynamic import threw: caught, local-only fallback
        .ok { a2 with useFirebase := false }
    else
      .ok { a2 with useFirebase := false }

/-- The routing of `getDB()`: it returns to the Remote Store exactly when
`useFirebase && firebaseModule`. -/
def getDBIsRemote (a : Adapter) : Bool := a.useFirebase && a.firebaseModule

/-- Embeds `database.add`: `getDB().add(store, data)`, then, if `useFirebase`, the
un-guarded local mirror write `localDB.add(store, {...data, cloudId: id})`.
A rejection of either await propagates to the caller; state changes made
before the rejection persist. -/
def addOp (a : Adapter) (s : StoreName) (data : JObj) (now : Nat) :
    Except Unit JsId × Adapter :=
  if getDBIsRemote a then
    match a.remote.addOp s data now with
    | .error e => (.error e, a)
    | .ok (ref, r2) =>
      let a2 := { a with remote := r2 }
      -- useFirebase holds on this branch: mirror into the local store
      match a2.localDB.addOp s { data with cloudId := .str ref } now with
      | .error e => (.error e, a2)
      | .ok (_, l2) => (.ok (.str ref), { a2 with localDB := l2 })
  else
    match a.localDB.addOp s data now with
    | .error e => (.error e, a)
    | .ok (k, l2) =>
      let a2 := { a with localDB := l2 }
      let kId : JsId := match k with | some n => .num n | none => .null
      if a2.useFirebase then
        -- unreachable in practice (useFirebase implies firebaseModule)
        match a2.localDB.addOp s { data with cloudId := kId } now with
        | .error e => (.error e, a2)
        | .ok (_, l3) => (.ok kId, { a2 with localDB := l3 })
      else (.ok kId, a2)

/-- Embeds `database.update`: `getDB().update(store, data)`, then, if `useFirebase`,
the un-guarded local mirror write `localDB.update(store, data)`.  The JS
return value is not modelled. -/
def updateOp (a : Adapter) (s : StoreName) (data : JObj) (now : Nat) :
    Except Unit Unit × Adapter :=
  if getDBIsRemote a then
    match a.remote.updateOp s data now with
    | .error e => (.error e, a)
    | .ok r2 =>
      let a2 := { a with remote := r2 }
      match a2.localDB.updateOp s data now with
      | .error e => (.error e, a2)
      | .ok (_, l2) => (.ok (), { a2 with localDB := l2 })
  else
    match a.localDB.updateOp s data now with
    | .error e => (.error e, a)
    | .ok (_, l2) =>
      let a2 := { a with localDB := l2 }
      if a2.useFirebase then
        match a2.localDB.updateOp s data now with
        | .error e => (.error e, a2)
        | .ok (_, l3) => (.ok (), { a2 with localDB := l3 })
      else (.ok (), a2)

/-- Embeds `database.enableCloud`: set `useCloud` and re-run `initDatabase`. -/
def enableCloud (a : Adapter) (localInitOk importOk handshakeOk : Bool) :
    Except Unit Adapter :=
  initDatabase { a with cfg := { a.cfg with useCloud := true } }
    localInitOk importOk handshakeOk

/-- Embeds `database.isCloudEnabled`. -/
def isCloudEnabled (a : Adapter) : Bool := a.useFirebase

/-- The inner `for (const item of localData)` loop of `syncToCloud` over the
snapshot `items`: skip records with a truthy `cloudId`; otherwise upload to
the Remote Store and rewrite the local copy with the assigned `cloudId`.
The returned flag records whether an await rejected (aborting the loop, to
be caught by the per-store `catch`); state changes made before the rejection
persist. -/
def syncItems (l : LocalDB) (r : RemoteDB) (s : StoreName) (now : Nat) :
    List JObj → LocalDB × RemoteDB × Bool
  | [] => (l, r, false)
  | item :: rest =>
    if jsTruthy item.cloudId then syncItems l r s now rest
    else
      match r.addOp s item now with
      | .error _ => (l, r, true)
      | .ok (ref, r2) =>
        match l.updateOp s { item with cloudId := .str ref } now with
        | .error _ => (l, r2, true)
        | .ok (_, l2) => syncItems l2 r2 s now rest

/-- One iteration of the `for (const store of stores)` loop of `syncToCloud`:
read the local snapshot and run the item loop; a rejection inside is caught
and logged and the loop moves on. -/
def syncStoreOp (l : LocalDB) (r : RemoteDB) (s : StoreName) (now : Nat) :
    LocalDB × RemoteDB :=
  let out := syncItems l r s now (l.getAllOp s)
  (out.1, out.2.1)

/-- Embeds `database.syncToCloud`: warn and resolve `false` when cloud sync is not
available; otherwise reconcile every collection (failures per collection are
swallowed) and resolve `true`. -/
def syncToCloud (a : Adapter) (now : Nat) : Bool × Adapter :=
  if !(a.useFirebase && a.firebaseModule) then (false, a)
  else
    let out := STORES.foldl (fun (p : LocalDB × RemoteDB) s => syncStoreOp p.1 p.2 s now)
      (a.localDB, a.remote)
    (true, { a with localDB := out.1, remote := out.2 })

end database

/-! ## Workouts Manager (workouts.js): the in-memory execution session -/

/-- One logged set (`{ setNumber, reps, weight, timestamp }`); `reps` is the
result of `parseInt`, `weight` of `parseFloat` (embedded as `ℚ`). -/
structure SetLog where
  setNumber : Nat
  reps : Int
  weight : ℚ
  timestamp : Nat
deriving DecidableEq, Repr

/-- An exercise line of a workout definition
(`{ exerciseId, name, sets, reps, rest }`; `reps` is the prescription
string such as `8-12`). -/
structure WExercise where
  exerciseId : Nat := 0
  name : String := ""
  sets : Nat := 0
  reps : String := ""
  rest : Nat := 0
deriving DecidableEq, Repr

/-- A session exercise: the workout exercise spread together with the
execution fields added by `startSession` (`skipped` is absent — falsy —
until `skipExercise` sets it). -/
structure SessionExercise where
  exerciseId : Nat := 0
  name : String := ""
  sets : Nat := 0
  reps : String := ""
  rest : Nat := 0
  completed : Bool := false
  skipped : Bool := false
  setsCompleted : Nat := 0
  logsPerSet : List SetLog := []
deriving DecidableEq, Repr

/-- A stored workout definition (only the fields `startSession` reads). -/
structure Workout where
  id : Nat := 0
  name : String := ""
  userId : Nat := 0
  exercises : List WExercise := []
deriving DecidableEq, Repr

/-- The in-memory `workoutSession` object.  `endTime`, `userId`,
`durationMinutes`, `totalSets`, `totalVolume` and `id` are absent until
`finishSession` writes them. -/
structure WorkoutSession where
  workoutId : Nat := 0
  workoutName : String := ""
  startTime : Nat := 0
  endTime : Option Nat := none
  exercises : List SessionExercise := []
  userId : Option Nat := none
  durationMinutes : Option Int := none
  totalSets : Option Nat := none
  totalVolume : Option ℚ := none
  id : Option Nat := none
deriving DecidableEq, Repr

/-- The mutable fields of the `WorkoutsManager` singleton. -/
structure WorkoutsManager where
  currentWorkout : Option Workout := none
  workoutSession : Option WorkoutSession := none
  currentExerciseIndex : Nat := 0
deriving DecidableEq, Repr

namespace WorkoutsManager

/-- Embeds `startSession`: install the workout as current, reset the index, and
build the session with per-exercise execution state. -/
def startSession (m : WorkoutsManager) (w : Workout) (now : Nat) :
    WorkoutSession × WorkoutsManager :=
  let session : WorkoutSession :=
    { workoutId := w.id, workoutName := w.name, startTime := now,
      endTime := none,
      exercises := w.exercises.map (fun ex =>
        { exerciseId := ex.exerciseId, name := ex.name, sets := ex.sets,
          reps := ex.reps, rest := ex.rest,
          completed := false, setsCompleted := 0, logsPerSet := [] }) }
  (session, { currentWorkout := some w, workoutSession := some session,
              currentExerciseIndex := 0 })

/-- Embeds `getCurrentExercise`: `null` without a session; the exercise at the
current index otherwise (JS yields `undefined` when the index is out of
bounds, embedded as `none`). -/
def getCurrentExercise (m : WorkoutsManager) : Option SessionExercise :=
  match m.workoutSession with
  | none => none
  | some s => s.exercises[m.currentExerciseIndex]?

/-- Embeds `logSet`: no-op without a session; otherwise append the set log to the
current exercise, refresh `setsCompleted`, and mark the exercise completed
once `setsCompleted >= sets`.  With a session but an out-of-bounds index the
JS code throws a `TypeError` (`.error`). -/
def logSet (m : WorkoutsManager) (setNumber : Nat) (reps : Int) (weight : ℚ)
    (now : Nat) : Except Unit WorkoutsManager :=
  match m.workoutSession with
  | none => .ok m
  | some s =>
    match s.exercises[m.currentExerciseIndex]? with
    | none => .error ()
    | some ex =>
      let logs := ex.logsPerSet ++ [⟨setNumber, reps, weight, now⟩]
      let ex2 := { ex with logsPerSet := logs, setsCompleted := logs.length,
                           completed := if logs.length ≥ ex.sets then true
                                        else ex.completed }
      let s2 := { s with exercises := s.exercises.set m.currentExerciseIndex ex2 }
      .ok { m with workoutSession := some s2 }

/-- Embeds `nextExercise`: advance the index when not at the last exercise and
return the new current exercise; `null` (and no move) at the boundary or
without a session. -/
def nextExercise (m : WorkoutsManager) :
    Option SessionExercise × WorkoutsManager :=
  match m.workoutSession with
  | none => (none, m)
  | some s =>
    if m.currentExerciseIndex < s.exercises.length - 1 then
      let m2 := { m with currentExerciseIndex := m.currentExerciseIndex + 1 }
      (getCurrentExercise m2, m2)
    else (none, m)

/-- Embeds `previousExercise`: move the index back when positive; `null` at the
boundary or without a session. -/
def previousExercise (m : WorkoutsManager) :
    Option SessionExercise × WorkoutsManager :=
  match m.workoutSession with
  | none => (none, m)
  | some s =>
    if m.currentExerciseIndex > 0 then
      let m2 := { m with currentExerciseIndex := m.currentExerciseIndex - 1 }
      (getCurrentExercise m2, m2)
    else (none, m)

/-- Embeds `skipExercise`: mark the current exercise skipped (when there is one)
and advance. -/
def skipExercise (m : WorkoutsManager) :
    Option SessionExercise × WorkoutsManager :=
  match getCurrentExercise m with
  | none => nextExercise m
  | some ex =>
    match m.workoutSession with
    | none => nextExercise m
    | some s =>
      let s2 := { s with exercises :=
                    s.exercises.set m.currentExerciseIndex { ex with skipped := true } }
      nextExercise { m with workoutSession := some s2 }

/-- Embeds `isWorkoutComplete`: `false` without a session; otherwise every exercise
is completed or skipped. -/
def isWorkoutComplete (m : WorkoutsManager) : Bool :=
  match m.workoutSession with
  | none => false
  | some s => s.exercises.all (fun ex => ex.completed || ex.skipped)

/-- Embeds `getSessionProgress`: `0` without a session; otherwise the rounded
percentage of completed-or-skipped exercises.  (For an empty exercise list
the JS expression is `NaN`; the model yields `0` there — no claim touches
that case.) -/
def getSessionProgress (m : WorkoutsManager) : Int :=
  match m.workoutSession with
  | none => 0
  | some s =>
    let completed := (s.exercises.filter (fun ex => ex.completed || ex.skipped)).length
    round ((completed : ℚ) / (s.exercises.length : ℚ) * 100)

/-- The straight-line mutations `finishSession` performs on the session
object before attempting the History write: stamp `endTime` and `userId`,
compute `durationMinutes` (wall-clock, `Math.round`), `totalSets`
(Σ `setsCompleted`) and `totalVolume` (Σ reps×weight over all logged
sets). -/
def finalizeStats (s : WorkoutSession) (userId : Nat) (now : Nat) :
    WorkoutSession :=
  { s with
    endTime := some now,
    userId := some userId,
    durationMinutes := some (round (((now : ℚ) - (s.startTime : ℚ)) / 60000)),
    totalSets := some (s.exercises.foldl (fun sum ex => sum + ex.setsCompleted) 0),
    totalVolume := some (s.exercises.foldl (fun sum ex =>
      sum + ex.logsPerSet.foldl (fun s2 l => s2 + (l.reps : ℚ) * l.weight) 0) 0) }

/-- Embeds `finishSession`: `null` without a session; otherwise mutate the session
in place via `finalizeStats`, then `db.add(STORES.history, session)` —
`hist` is the outcome of that Local Store write (`.ok (some id)` success,
`.ok none` the not-ready `null`, `.error` a rejection).  Only on a
non-throwing write is the session state cleared; a rejection is caught,
reported, and `null` returned with the (mutated) session kept. -/
def finishSession (m : WorkoutsManager) (userId : Nat) (now : Nat)
    (hist : Except Unit (Option Nat)) :
    Option WorkoutSession × WorkoutsManager :=
  match m.workoutSession with
  | none => (none, m)
  | some s =>
    let s2 := finalizeStats s userId now
    match hist with
    | .error _ => (none, { m with workoutSession := some s2 })
    | .ok historyId =>
      (some { s2 with id := historyId },
       { currentWorkout := none, workoutSession := none,
         currentExerciseIndex := 0 })

/-- Embeds `cancelSession`: discard all session state unconditionally. -/
def cancelSession (m : WorkoutsManager) : WorkoutsManager :=
  { currentWorkout := none, workoutSession := none, currentExerciseIndex := 0 }

end WorkoutsManager

/-! ## Specification functions for the reconciliation pass -/

/-- The records of a snapshot that still lack a truthy `cloudId` — the ones
`syncToCloud` must upload. -/
def pendingOf (items : List JObj) : List JObj :=
  items.filter (fun i => !jsTruthy i.cloudId)

/-- The remote documents created by uploading the pending records of
`items` under the document ids `refs`, in snapshot order. -/
def uploadDocs (now : Nat) (refs : List String) (items : List JObj) : List RDoc :=
  List.zipWith (fun c i => RDoc.mk c { i with createdAt := some now })
    refs (pendingOf items)

/-- The local snapshot after a successful sync loop: every pending record is
rewritten with its newly assigned `cloudId` (and an `updatedAt` stamp),
already-synced records are untouched. -/
def markSynced (now : Nat) : List String → List JObj → List JObj
  | _, [] => []
  | refs, i :: rest =>
    if jsTruthy i.cloudId then i :: markSynced now refs rest
    else
      match refs with
      | [] => i :: markSynced now [] rest
      | c :: cs =>
          { i with cloudId := .str c, updatedAt := some now } :: markSynced now cs rest

/-- Well-formedness of a local collection as IndexedDB guarantees it: every
record carries a primary key and keys are pairwise distinct. -/
def Collection.wfIds (c : Collection) : Prop :=
  (∀ i ∈ c.recs, i.id.isSome = true) ∧ (c.recs.map (fun i => i.id)).Nodup

instance (c : Collection) : Decidable c.wfIds := by
  unfold Collection.wfIds; infer_instance

/-- The state transformer of the `for (const store of stores)` loop of
`syncToCloud`. -/
def syncFold (now : Nat) (stores : List StoreName) (p : LocalDB × RemoteDB) :
    LocalDB × RemoteDB :=
  stores.foldl (fun q s => database.syncStoreOp q.1 q.2 s now) p

/-- Sum of reps×weight over the logged sets of one exercise (specification form). -/
def exVolume (ex : SessionExercise) : ℚ :=
  (ex.logsPerSet.map (fun l => (l.reps : ℚ) * l.weight)).sum

/-! ## Concrete states used by witnesses and counterexamples -/

/-- Cloud mode on; the local `users` store rejects writes (e.g. a duplicate
unique-index value) while the Remote Store accepts them, and the remote
`users` collection already holds a document whose path is `"5"`. -/
def mirrorFailAdapter : Adapter :=
  { cfg := { useCloud := true, isFirebaseReady := true },
    firebaseModule := true, useFirebase := true,
    localDB := { dbOpen := true, failOn := fun s => s == .users, colls := fun _ => {} },
    remote := { failOn := fun _ => false,
                docs := fun s => if s == .users then [⟨"5", { id := some 5 }⟩] else [],
                nextRef := 0 } }

/-- Cloud mode on; the Remote Store rejects writes to `users`. -/
def remoteRejectAdapter : Adapter :=
  { cfg := { useCloud := true, isFirebaseReady := true },
    firebaseModule := true, useFirebase := true,
    localDB := { dbOpen := true, failOn := fun _ => false, colls := fun _ => {} },
    remote := { failOn := fun s => s == .users, docs := fun _ => [], nextRef := 0 } }

/-- A fresh adapter in local-only mode, before any initialization. -/
def offlineAdapter : Adapter :=
  { cfg := { useCloud := false, isFirebaseReady := false },
    firebaseModule := false, useFirebase := false,
    localDB := {}, remote := {} }

/-- Cloud mode on with two collections holding data: `users` has one
pending record and one already-synced record, `workouts` one pending
record. -/
def syncAdapter : Adapter :=
  { cfg := { useCloud := true, isFirebaseReady := true },
    firebaseModule := true, useFirebase := true,
    localDB := { dbOpen := true, failOn := fun _ => false,
                 colls := fun s =>
                   match s with
                   | .users => { recs := [⟨some 1, .null, 10, some 0, none⟩,
                                          ⟨some 2, .str "c9", 11, some 0, none⟩],
                                 nextId := 3 }
                   | .workouts => { recs := [⟨some 1, .null, 20, some 0, none⟩],
                                    nextId := 2 }
                   | _ => {} },
    remote := { failOn := fun _ => false, docs := fun _ => [], nextRef := 0 } }

/-- Like `syncAdapter`, but the remote `workouts` collection rejects
writes, so syncing that collection throws. -/
def syncFailAdapter : Adapter :=
  { syncAdapter with
    remote := { failOn := fun s => s == .workouts, docs := fun _ => [], nextRef := 0 } }

/-- An in-progress session: one exercise (2 target sets) with one logged
set, no `endTime` yet. -/
def c6session : WorkoutSession :=
  { workoutId := 1, workoutName := "Push A", startTime := 0,
    exercises := [⟨1, "Supino", 2, "8-12", 90, false, false, 1, [⟨1, 10, 20, 0⟩]⟩] }

/-- A manager executing `c6session`. -/
def c6mgr : WorkoutsManager :=
  { currentWorkout := none, workoutSession := some c6session,
    currentExerciseIndex := 0 }

/-- A session whose single exercise logged sets `reps 10 × 20 kg` and
`reps 8 × 25 kg` — the worked example of the volume computation. -/
def volumeSession : WorkoutSession :=
  { workoutId := 2, workoutName := "Push B", startTime := 0,
    exercises := [⟨1, "Supino", 3, "8-12", 90, false, false, 2,
                   [⟨1, 10, 20, 0⟩, ⟨2, 8, 25, 0⟩]⟩] }

/-- A manager executing `volumeSession`. -/
def volumeMgr : WorkoutsManager :=
  { currentWorkout := none, workoutSession := some volumeSession,
    currentExerciseIndex := 0 }

/-- A fresh two-target-set exercise with no logged sets. -/
def freshExercise : SessionExercise := ⟨1, "Remada", 2, "10", 60, false, false, 0, []⟩

/-- A session holding only `freshExercise`. -/
def freshSession : WorkoutSession :=
  { workoutId := 3, workoutName := "Pull A", startTime := 0,
    exercises := [freshExercise] }

/-- A manager at exercise 0 of `freshSession`. -/
def freshSessionMgr : WorkoutsManager :=
  { currentWorkout := none, workoutSession := some freshSession,
    currentExerciseIndex := 0 }

/-! ## Helper lemmas -/

lemma jsTruthy_refStr (n : Nat) : jsTruthy (.str (refStr n)) = true := by
  simp only [jsTruthy, refStr, bne_iff_ne, ne_eq]
  intro h
  rw [String.length_append] at h
  simp at h
  exact absurd h.1 (by decide)

@[simp] lemma setColl_colls_self (l : LocalDB) (s : StoreName) (c : Collection) :
    (l.setColl s c).colls s = c := by
  simp [LocalDB.setColl]

lemma setColl_colls_ne (l : LocalDB) (s s2 : StoreName) (c : Collection)
    (h : s2 ≠ s) : (l.setColl s c).colls s2 = l.colls s2 := by
  simp [LocalDB.setColl, h]

@[simp] lemma setColl_dbOpen (l : LocalDB) (s : StoreName) (c : Collection) :
    (l.setColl s c).dbOpen = l.dbOpen := rfl

@[simp] lemma setColl_failOn (l : LocalDB) (s : StoreName) (c : Collection) :
    (l.setColl s c).failOn = l.failOn := rfl

lemma markSynced_map_id (now : Nat) :
    ∀ (items : List JObj) (refs : List String),
      (markSynced now refs items).map (fun i => i.id) = items.map (fun i => i.id)
  | [], refs => by simp [markSynced]
  | i :: rest, refs => by
    unfold markSynced
    by_cases h : jsTruthy i.cloudId
    · simp [h, markSynced_map_id now rest refs]
    · cases refs with
      | nil => simp [h, markSynced_map_id now rest []]
      | cons c cs => simp [h, markSynced_map_id now rest cs]

lemma markSynced_all_truthy (now : Nat) :
    ∀ (items : List JObj) (refs : List String),
      refs.length = (pendingOf items).length →
      (∀ c ∈ refs, jsTruthy (.str c) = true) →
      ∀ i ∈ markSynced now refs items, jsTruthy i.cloudId = true
  | [], refs => by simp [markSynced]
  | i :: rest, refs => by
    intro hlen htr
    unfold markSynced
    by_cases h : jsTruthy i.cloudId
    · have hlen2 : refs.length = (pendingOf rest).length := by
        simpa [pendingOf, h] using hlen
      intro j hj
      simp only [h, if_true] at hj
      rcases List.mem_cons.mp hj with hj1 | hj2
      · subst hj1; exact h
      · exact markSynced_all_truthy now rest refs hlen2 htr j hj2
    · cases refs with
      | nil => simp [pendingOf, h] at hlen
      | cons c cs =>
        have hlen2 : cs.length = (pendingOf rest).length := by
          simpa [pendingOf, h] using hlen
        have htr2 : ∀ c2 ∈ cs, jsTruthy (.str c2) = true := fun c2 hc2 =>
          htr c2 (List.mem_cons_of_mem _ hc2)
        intro j hj
        simp only [h, if_false] at hj
        rcases List.mem_cons.mp hj with hj1 | hj2
        · subst hj1; simpa using htr c (List.mem_cons_self _ _)
        · exact markSynced_all_truthy now rest cs hlen2 htr2 j hj2

lemma remote_addOp_ok (r : RemoteDB) (s : StoreName) (data : JObj) (now : Nat)
    (hf : r.failOn s = false) :
    r.addOp s data now = .ok (refStr r.nextRef,
      { r with
        docs := fun s2 =>
          if s2 = s then
            r.docs s2 ++ [⟨refStr r.nextRef, { data with createdAt := some now }⟩]
          else r.docs s2,
        nextRef := r.nextRef + 1 }) := by
  simp [RemoteDB.addOp, hf]

lemma updateOp_replace (l : LocalDB) (s : StoreName) (pre rest : List JObj)
    (i d : JObj) (now : Nat) (k : Nat)
    (hdb : l.dbOpen = true) (hf : l.failOn s = false)
    (hrecs : (l.colls s).recs = pre ++ i :: rest)
    (hid : i.id = some k) (hdid : d.id = some k)
    (hnd : ((pre ++ i :: rest).map (fun r => r.id)).Nodup) :
    l.updateOp s d now =
      .ok (some k, l.setColl s
        { l.colls s with recs := pre ++ { d with updatedAt := some now } :: rest }) := by
  have hnotpre : ∀ j ∈ pre, j.id ≠ some k := by
    intro j hj hjk
    rw [List.map_append, List.map_cons, List.nodup_append] at hnd
    have h1 : some k ∈ pre.map (fun r => r.id) := by
      rw [← hjk]; exact List.mem_map_of_mem _ hj
    have h2 : some k ∈ i.id :: rest.map (fun r => r.id) := by
      rw [hid]; exact List.mem_cons_self _ _
    exact hnd.2.2 h1 h2
  have hnotrest : ∀ j ∈ rest, j.id ≠ some k := by
    intro j hj hjk
    rw [List.map_append, List.map_cons, List.nodup_append] at hnd
    have h1 : some k ∈ rest.map (fun r => r.id) := by
      rw [← hjk]; exact List.mem_map_of_mem _ hj
    rw [hid] at hnd
    exact (List.nodup_cons.mp hnd.2.1).1 h1
  have hany : (l.colls s).recs.any (fun r => decide (r.id = some k)) = true := by
    rw [hrecs]
    refine List.any_eq_true.mpr ⟨i, List.mem_append_right _ (List.mem_cons_self _ _), ?_⟩
    simp [hid]
  have hmap : ∀ e : JObj,
      (l.colls s).recs.map (fun r => if r.id = some k then e else r)
        = pre ++ e :: rest := by
    intro e
    rw [hrecs, List.map_append, List.map_cons, if_pos hid]
    congr 1
    · conv_rhs => rw [← List.map_id pre]
      exact List.map_congr_left (fun j hj => if_neg (hnotpre j hj))
    · congr 1
      conv_rhs => rw [← List.map_id rest]
      exact List.map_congr_left (fun j hj => if_neg (hnotrest j hj))
  simp only [LocalDB.updateOp, hdb, hf, Bool.not_true, Bool.false_eq_true,
    if_false, hdid]
  rw [if_pos hany, hmap]

lemma syncItems_spec (s : StoreName) (now : Nat) :
    ∀ (items pre : List JObj) (l : LocalDB) (r : RemoteDB),
      l.dbOpen = true → l.failOn s = false → r.failOn s = false →
      (l.colls s).recs = pre ++ items →
      (∀ i ∈ pre ++ items, i.id.isSome = true) →
      ((pre ++ items).map (fun i => i.id)).Nodup →
      ∃ refs : List String,
        (∀ c ∈ refs, jsTruthy (.str c) = true) ∧
        refs.length = (pendingOf items).length ∧
        (database.syncItems l r s now items).2.2 = false ∧
        (database.syncItems l r s now items).1.dbOpen = true ∧
        (database.syncItems l r s now items).1.failOn = l.failOn ∧
        (database.syncItems l r s now items).1.colls s =
          ⟨pre ++ markSynced now refs items, (l.colls s).nextId⟩ ∧
        (∀ s2, s2 ≠ s → (database.syncItems l r s now items).1.colls s2 = l.colls s2) ∧
        (database.syncItems l r s now items).2.1.failOn = r.failOn ∧
        (database.syncItems l r s now items).2.1.docs s
          = r.docs s ++ uploadDocs now refs items ∧
        (∀ s2, s2 ≠ s → (database.syncItems l r s now items).2.1.docs s2 = r.docs s2)
  | [], pre, l, r => by
    intro hdb hlf hrf hrecs hsome hnd
    rw [List.append_nil] at hrecs
    refine ⟨[], by simp, by simp [pendingOf], ?_, hdb, rfl, ?_, fun s2 _ => rfl, rfl,
      ?_, fun s2 _ => rfl⟩
    · rfl
    · show l.colls s = _
      cases hcolls : l.colls s with
      | mk recs nid =>
        rw [hcolls] at hrecs
        simp only [markSynced] at *
        simp [hrecs]
    · show r.docs s = _
      simp [uploadDocs, pendingOf]
  | i :: rest, pre, l, r => by
    intro hdb hlf hrf hrecs hsome hnd
    by_cases h : jsTruthy i.cloudId
    · -- already synced: skipped by the loop
      obtain ⟨refs, htr, hlen, h1, h2, h3, h4, h5, h6, h7, h8⟩ :=
        syncItems_spec s now rest (pre ++ [i]) l r hdb hlf hrf
          (by rw [hrecs, List.append_assoc]; rfl)
          (by simpa using hsome) (by simpa using hnd)
      have hstep : database.syncItems l r s now (i :: rest)
          = database.syncItems l r s now rest := by
        simp [database.syncItems, h]
      have hms : markSynced now refs (i :: rest) = i :: markSynced now refs rest := by
        simp [markSynced, h]
      have hud : uploadDocs now refs (i :: rest) = uploadDocs now refs rest := by
        simp [uploadDocs, pendingOf, h]
      refine ⟨refs, htr, by simpa [pendingOf, h] using hlen, ?_, ?_, ?_, ?_, ?_, ?_, ?_, ?_⟩
        <;> rw [hstep]
      · exact h1
      · exact h2
      · exact h3
      · rw [h4, hms]; simp
      · exact h5
      · exact h6
      · rw [h7, hud]
      · exact h8
    · -- pending: upload to the Remote Store, rewrite the local copy
      obtain ⟨k, hk⟩ := Option.isSome_iff_exists.mp
        (hsome i (List.mem_append_right _ (List.mem_cons_self _ _)))
      have hadd := remote_addOp_ok r s i now hrf
      have hupd := updateOp_replace l s pre rest i
        { i with cloudId := .str (refStr r.nextRef) } now k hdb hlf hrecs hk
        (by simpa using hk) hnd
      set d2 : JObj :=
        { i with cloudId := .str (refStr r.nextRef), updatedAt := some now } with hd2
      set r2 : RemoteDB :=
        { r with
          docs := fun s2 =>
            if s2 = s then
              r.docs s2 ++ [⟨refStr r.nextRef, { i with createdAt := some now }⟩]
            else r.docs s2,
          nextRef := r.nextRef + 1 } with hr2
      set l2 : LocalDB := l.setColl s { l.colls s with recs := pre ++ d2 :: rest }
        with hl2
      have hstep : database.syncItems l r s now (i :: rest)
          = database.syncItems l2 r2 s now rest := by
        rw [database.syncItems]
        simp only [h, Bool.false_eq_true, if_false]
        simp only [hadd, hupd]
      have hrecs2 : (l2.colls s).recs = (pre ++ [d2]) ++ rest := by
        rw [hl2]; simp
      have hsome2 : ∀ j ∈ (pre ++ [d2]) ++ rest, j.id.isSome = true := by
        intro j hj
        rcases List.mem_append.mp hj with hj1 | hj2
        · rcases List.mem_append.mp hj1 with hj3 | hj4
          · exact hsome j (List.mem_append_left _ hj3)
          · rw [List.mem_singleton.mp hj4, hd2]
            simpa using hsome i (List.mem_append_right _ (List.mem_cons_self _ _))
        · exact hsome j (List.mem_append_right _ (List.mem_cons_of_mem _ hj2))
      have hnd2 : (((pre ++ [d2]) ++ rest).map (fun j => j.id)).Nodup := by
        have hids : ((pre ++ [d2]) ++ rest).map (fun j => j.id)
            = (pre ++ i :: rest).map (fun j => j.id) := by
          simp [hd2]
        rw [hids]; exact hnd
      obtain ⟨refs, htr, hlen, h1, h2, h3, h4, h5, h6, h7, h8⟩ :=
        syncItems_spec s now rest (pre ++ [d2]) l2 r2 (by rw [hl2]; simpa using hdb)
          (by rw [hl2]; simpa using hlf) (by rw [hr2]; simpa using hrf)
          hrecs2 hsome2 hnd2
      have hms : markSynced now (refStr r.nextRef :: refs) (i :: rest)
          = d2 :: markSynced now refs rest := by
        simp [markSynced, h, hd2]
      have hud : uploadDocs now (refStr r.nextRef :: refs) (i :: rest)
          = ⟨refStr r.nextRef, { i with createdAt := some now }⟩
              :: uploadDocs now refs rest := by
        simp [uploadDocs, pendingOf, h]
      refine ⟨refStr r.nextRef :: refs, ?_, ?_, ?_, ?_, ?_, ?_, ?_, ?_, ?_, ?_⟩
      · intro c hc
        rcases List.mem_cons.mp hc with hc1 | hc2
        · rw [hc1]; exact jsTruthy_refStr _
        · exact htr c hc2
      · simpa [pendingOf, h] using hlen
      · rw [hstep]; exact h1
      · rw [hstep]; exact h2
      · rw [hstep, h3, hl2]; rfl
      · rw [hstep, h4, hms]
        have hnid : (l2.colls s).nextId = (l.colls s).nextId := by
          rw [hl2]; simp
        rw [hnid]
        simp
      · intro s2 hs2
        rw [hstep, h5 s2 hs2, hl2, setColl_colls_ne _ _ _ _ hs2]
      · rw [hstep, h6, hr2]
      · rw [hstep, h7, hud, hr2]
        simp
      · intro s2 hs2
        rw [hstep, h8 s2 hs2, hr2]
        simp [hs2]


lemma syncItems_remote_fail (s : StoreName) (now : Nat) :
    ∀ (items : List JObj) (l : LocalDB) (r : RemoteDB), r.failOn s = true →
      (database.syncItems l r s now items).1 = l ∧
      (database.syncItems l r s now items).2.1 = r
  | [], l, r => by intro _; exact ⟨rfl, rfl⟩
  | i :: rest, l, r => by
    intro hrf
    rw [database.syncItems]
    by_cases h : jsTruthy i.cloudId
    · simp only [h, if_true]
      exact syncItems_remote_fail s now rest l r hrf
    · simp [h, RemoteDB.addOp, hrf]

lemma syncItems_allSynced (s : StoreName) (now : Nat) :
    ∀ (items : List JObj) (l : LocalDB) (r : RemoteDB),
      (∀ i ∈ items, jsTruthy i.cloudId = true) →
      database.syncItems l r s now items = (l, r, false)
  | [], l, r => by intro _; rfl
  | i :: rest, l, r => by
    intro htr
    rw [database.syncItems]
    simp only [htr i (List.mem_cons_self _ _), if_true]
    exact syncItems_allSynced s now rest l r
      (fun j hj => htr j (List.mem_cons_of_mem _ hj))

lemma syncStoreOp_fail (l : LocalDB) (r : RemoteDB) (s : StoreName) (now : Nat)
    (hrf : r.failOn s = true) : database.syncStoreOp l r s now = (l, r) := by
  obtain ⟨h1, h2⟩ := syncItems_remote_fail s now (l.getAllOp s) l r hrf
  simp [database.syncStoreOp, h1, h2]

lemma syncStoreOp_allSynced (l : LocalDB) (r : RemoteDB) (s : StoreName) (now : Nat)
    (htr : ∀ i ∈ (l.colls s).recs, jsTruthy i.cloudId = true) :
    database.syncStoreOp l r s now = (l, r) := by
  unfold database.syncStoreOp
  by_cases hdb : l.dbOpen = true
  · have hga : l.getAllOp s = (l.colls s).recs := by simp [LocalDB.getAllOp, hdb]
    rw [hga, syncItems_allSynced s now _ l r htr]
  · have hdbf : l.dbOpen = false := by simpa using hdb
    have hga : l.getAllOp s = [] := by simp [LocalDB.getAllOp, hdbf]
    rw [hga]
    rfl

lemma syncStoreOp_spec (l : LocalDB) (r : RemoteDB) (s : StoreName) (now : Nat)
    (hdb : l.dbOpen = true) (hlf : l.failOn s = false) (hrf : r.failOn s = false)
    (hwf : (l.colls s).wfIds) :
    ∃ refs : List String,
      (∀ c ∈ refs, jsTruthy (.str c) = true) ∧
      refs.length = (pendingOf (l.colls s).recs).length ∧
      (database.syncStoreOp l r s now).1.dbOpen = true ∧
      (database.syncStoreOp l r s now).1.failOn = l.failOn ∧
      (database.syncStoreOp l r s now).1.colls s =
        ⟨markSynced now refs (l.colls s).recs, (l.colls s).nextId⟩ ∧
      (∀ s2, s2 ≠ s → (database.syncStoreOp l r s now).1.colls s2 = l.colls s2) ∧
      (database.syncStoreOp l r s now).2.failOn = r.failOn ∧
      (database.syncStoreOp l r s now).2.docs s
        = r.docs s ++ uploadDocs now refs (l.colls s).recs ∧
      (∀ s2, s2 ≠ s → (database.syncStoreOp l r s now).2.docs s2 = r.docs s2) := by
  obtain ⟨refs, htr, hlen, h1, h2, h3, h4, h5, h6, h7, h8⟩ :=
    syncItems_spec s now (l.colls s).recs [] l r hdb hlf hrf (by simp)
      (by simpa using hwf.1) (by simpa using hwf.2)
  have hga : l.getAllOp s = (l.colls s).recs := by simp [LocalDB.getAllOp, hdb]
  have hop : database.syncStoreOp l r s now =
      ((database.syncItems l r s now (l.colls s).recs).1,
       (database.syncItems l r s now (l.colls s).recs).2.1) := by
    simp [database.syncStoreOp, hga]
  refine ⟨refs, htr, hlen, ?_, ?_, ?_, ?_, ?_, ?_, ?_⟩ <;> rw [hop]
  · exact h2
  · exact h3
  · rw [h4]; simp
  · exact h5
  · exact h6
  · exact h7
  · exact h8

lemma wfIds_markSynced (now : Nat) (refs : List String) (c : Collection) (n : Nat)
    (hwf : c.wfIds) : Collection.wfIds ⟨markSynced now refs c.recs, n⟩ := by
  constructor
  · intro j hj
    have hmem : j.id ∈ (markSynced now refs c.recs).map (fun i => i.id) :=
      List.mem_map_of_mem _ hj
    rw [markSynced_map_id] at hmem
    obtain ⟨i, hi, hieq⟩ := List.mem_map.mp hmem
    rw [← hieq]
    exact hwf.1 i hi
  · show ((markSynced now refs c.recs).map (fun i => i.id)).Nodup
    rw [markSynced_map_id]
    exact hwf.2

lemma syncFold_allSynced (now : Nat) :
    ∀ (stores : List StoreName) (l : LocalDB) (r : RemoteDB),
      (∀ s, ∀ i ∈ (l.colls s).recs, jsTruthy i.cloudId = true) →
      syncFold now stores (l, r) = (l, r)
  | [], l, r => by intro _; rfl
  | s0 :: stores, l, r => by
    intro htr
    show syncFold now stores (database.syncStoreOp l r s0 now) = (l, r)
    rw [syncStoreOp_allSynced l r s0 now (htr s0)]
    exact syncFold_allSynced now stores l r htr

lemma syncFold_spec (now : Nat) :
    ∀ (stores : List StoreName) (l : LocalDB) (r : RemoteDB),
      stores.Nodup → l.dbOpen = true →
      (∀ s, l.failOn s = false) →
      (∀ s, (l.colls s).wfIds) →
      (syncFold now stores (l, r)).1.dbOpen = true ∧
      (∀ s, (syncFold now stores (l, r)).1.failOn s = l.failOn s) ∧
      (∀ s, (syncFold now stores (l, r)).2.failOn s = r.failOn s) ∧
      (∀ s, s ∉ stores →
        (syncFold now stores (l, r)).1.colls s = l.colls s ∧
        (syncFold now stores (l, r)).2.docs s = r.docs s) ∧
      (∀ s ∈ stores,
        (r.failOn s = true →
          (syncFold now stores (l, r)).1.colls s = l.colls s ∧
          (syncFold now stores (l, r)).2.docs s = r.docs s) ∧
        (r.failOn s = false →
          ∃ refs : List String,
            (∀ c ∈ refs, jsTruthy (.str c) = true) ∧
            refs.length = (pendingOf (l.colls s).recs).length ∧
            (syncFold now stores (l, r)).1.colls s =
              ⟨markSynced now refs (l.colls s).recs, (l.colls s).nextId⟩ ∧
            (syncFold now stores (l, r)).2.docs s
              = r.docs s ++ uploadDocs now refs (l.colls s).recs))
  | [], l, r => by
    intro _ hdb _ _
    refine ⟨hdb, fun s => rfl, fun s => rfl, fun s _ => ⟨rfl, rfl⟩, ?_⟩
    intro s hs
    simp at hs
  | s0 :: stores, l, r => by
    intro hnd hdb hlf hwf
    have hnd2 : stores.Nodup := (List.nodup_cons.mp hnd).2
    have hs0 : s0 ∉ stores := (List.nodup_cons.mp hnd).1
    by_cases hrf0 : r.failOn s0 = true
    · -- the sync of this collection throws immediately; state unchanged
      have hstep : syncFold now (s0 :: stores) (l, r) = syncFold now stores (l, r) := by
        show syncFold now stores (database.syncStoreOp l r s0 now) = _
        rw [syncStoreOp_fail l r s0 now hrf0]
      obtain ⟨g1, g2, g3, g4, g5⟩ := syncFold_spec now stores l r hnd2 hdb hlf hwf
      rw [hstep]
      refine ⟨g1, g2, g3, ?_, ?_⟩
      · intro s hs
        exact g4 s (fun hmem => hs (List.mem_cons_of_mem _ hmem))
      · intro s hs
        rcases List.mem_cons.mp hs with hseq | hsmem
        · subst hseq
          refine ⟨fun _ => g4 s hs0, fun hrff => ?_⟩
          rw [hrf0] at hrff
          exact absurd hrff (by simp)
        · exact g5 s hsmem
    · have hrf0f : r.failOn s0 = false := by simpa using hrf0
      obtain ⟨refs0, htr0, hlen0, k1, k2, k3, k4, k5, k6, k7⟩ :=
        syncStoreOp_spec l r s0 now hdb (hlf s0) hrf0f (hwf s0)
      have hstep : syncFold now (s0 :: stores) (l, r) =
          syncFold now stores
            ((database.syncStoreOp l r s0 now).1, (database.syncStoreOp l r s0 now).2) := by
        rfl
      have hlf1 : ∀ s, (database.syncStoreOp l r s0 now).1.failOn s = false := by
        intro s; rw [k2]; exact hlf s
      have hwf1 : ∀ s, ((database.syncStoreOp l r s0 now).1.colls s).wfIds := by
        intro s
        by_cases hseq : s = s0
        · subst hseq
          rw [k3]
          exact wfIds_markSynced now refs0 (l.colls s) _ (hwf s)
        · rw [k4 s hseq]
          exact hwf s
      obtain ⟨g1, g2, g3, g4, g5⟩ :=
        syncFold_spec now stores (database.syncStoreOp l r s0 now).1
          (database.syncStoreOp l r s0 now).2 hnd2 k1 hlf1 hwf1
      rw [hstep]
      refine ⟨g1, ?_, ?_, ?_, ?_⟩
      · intro s; rw [g2 s, k2]
      · intro s; rw [g3 s, k5]
      · intro s hs
        have hsne : s ≠ s0 := fun hc => hs (hc ▸ List.mem_cons_self _ _)
        have hsmem : s ∉ stores := fun hc => hs (List.mem_cons_of_mem _ hc)
        obtain ⟨ga, gb⟩ := g4 s hsmem
        exact ⟨by rw [ga, k4 s hsne], by rw [gb, k7 s hsne]⟩
      · intro s hs
        rcases List.mem_cons.mp hs with hseq | hsmem
        · subst hseq
          obtain ⟨ga, gb⟩ := g4 s hs0
          refine ⟨fun hrft => ?_, fun _ => ?_⟩
          · rw [hrf0f] at hrft
            exact absurd hrft (by simp)
          · exact ⟨refs0, htr0, hlen0, by rw [ga, k3], by rw [gb, k6]⟩
        · have hsne : s ≠ s0 := fun hc => hs0 (hc ▸ hsmem)
          obtain ⟨ga, gb⟩ := g5 s hsmem
          refine ⟨?_, ?_⟩
          · intro hrft
            obtain ⟨gc, gd⟩ := ga (by rw [k5]; exact hrft)
            exact ⟨by rw [gc, k4 s hsne], by rw [gd, k7 s hsne]⟩
          · intro hrff
            obtain ⟨refs, p1, p2, p3, p4⟩ := gb (by rw [k5]; exact hrff)
            refine ⟨refs, p1, ?_, ?_, ?_⟩
            · rw [p2, k4 s hsne]
            · rw [p3, k4 s hsne]
            · rw [p4, k7 s hsne, k4 s hsne]


lemma foldl_add_volume (logs : List SetLog) (c : ℚ) :
    logs.foldl (fun s2 l => s2 + (l.reps : ℚ) * l.weight) c
      = c + (logs.map (fun l => (l.reps : ℚ) * l.weight)).sum := by
  induction logs generalizing c with
  | nil => simp
  | cons x xs ih => simp [ih, add_assoc]

lemma foldl_add_sets (exs : List SessionExercise) (c : Nat) :
    exs.foldl (fun sum ex => sum + ex.setsCompleted) c
      = c + (exs.map (fun ex => ex.setsCompleted)).sum := by
  induction exs generalizing c with
  | nil => simp
  | cons x xs ih => simp [ih, add_assoc]

lemma foldl_add_exvolume (exs : List SessionExercise) (c : ℚ) :
    exs.foldl (fun sum ex =>
        sum + ex.logsPerSet.foldl (fun s2 l => s2 + (l.reps : ℚ) * l.weight) 0) c
      = c + (exs.map exVolume).sum := by
  induction exs generalizing c with
  | nil => simp
  | cons x xs ih =>
    simp only [List.foldl_cons, List.map_cons, List.sum_cons]
    rw [ih, foldl_add_volume, exVolume]
    ring

lemma mem_STORES (s : StoreName) : s ∈ STORES := by cases s <;> decide

lemma STORES_nodup : STORES.Nodup := by decide

lemma syncToCloud_eq (a : Adapter) (now : Nat)
    (hf : a.useFirebase = true) (hm : a.firebaseModule = true) :
    database.syncToCloud a now =
      (true, { a with localDB := (syncFold now STORES (a.localDB, a.remote)).1,
                      remote := (syncFold now STORES (a.localDB, a.remote)).2 }) := by
  simp [database.syncToCloud, hf, hm, syncFold]


/-! ## Claim theorems -/

/-- C5: every Local Store operation (add, get, getAll, getByIndex, update,
delete) invoked before `init()` has completed does not throw: it logs a
warning and resolves with a benign result — `null` for add/get/update, an
empty array for getAll/getByIndex, nothing for delete — leaving the store
unchanged. -/
theorem c5_not_ready_ops_benign (l : LocalDB) (h : l.dbOpen = false)
    (s : StoreName) (data : JObj) (now : Nat) (id : Nat) (field : String)
    (v : JsId) :
    LocalDB.addOp l s data now = .ok (none, l) ∧
    LocalDB.getOp l s id = none ∧
    LocalDB.getAllOp l s = [] ∧
    LocalDB.getByIndexOp l s field v = [] ∧
    LocalDB.updateOp l s data now = .ok (none, l) ∧
    LocalDB.deleteOp l s id = .ok l := by
  simp [LocalDB.addOp, LocalDB.getOp, LocalDB.getAllOp, LocalDB.getByIndexOp,
    LocalDB.updateOp, LocalDB.deleteOp, h]

/-- Witness for C5 at the fresh (never-initialized) Local Store. -/
theorem c5_witness :
    ({} : LocalDB).dbOpen = false ∧
    (LocalDB.addOp {} .users {} 0 = .ok (none, {}) ∧
     LocalDB.getOp {} .users 1 = none ∧
     LocalDB.getAllOp {} .users = [] ∧
     LocalDB.getByIndexOp {} .users "email" .null = [] ∧
     LocalDB.updateOp {} .users {} 0 = .ok (none, {}) ∧
     LocalDB.deleteOp {} .users 1 = .ok {}) :=
  ⟨rfl, c5_not_ready_ops_benign {} rfl .users {} 0 1 "email" .null⟩

/-- C10: when no workout session is active, every session operation is a
total no-op that never throws — `logSet` leaves the state unchanged,
`getCurrentExercise`, `nextExercise`, `previousExercise` and `finishSession`
return `null`, `isWorkoutComplete` returns `false`, and
`getSessionProgress` returns `0`. -/
theorem c10_no_session_noops (m : WorkoutsManager)
    (h : m.workoutSession = none) (sn : Nat) (rp : Int) (w : ℚ) (t : Nat)
    (u : Nat) (now : Nat) (hist : Except Unit (Option Nat)) :
    WorkoutsManager.getCurrentExercise m = none ∧
    WorkoutsManager.logSet m sn rp w t = .ok m ∧
    WorkoutsManager.nextExercise m = (none, m) ∧
    WorkoutsManager.previousExercise m = (none, m) ∧
    WorkoutsManager.finishSession m u now hist = (none, m) ∧
    WorkoutsManager.isWorkoutComplete m = false ∧
    WorkoutsManager.getSessionProgress m = 0 := by
  simp [WorkoutsManager.getCurrentExercise, WorkoutsManager.logSet,
    WorkoutsManager.nextExercise, WorkoutsManager.previousExercise,
    WorkoutsManager.finishSession, WorkoutsManager.isWorkoutComplete,
    WorkoutsManager.getSessionProgress, h]

/-- Witness for C10 at the freshly constructed manager. -/
theorem c10_witness :
    ({} : WorkoutsManager).workoutSession = none ∧
    (WorkoutsManager.getCurrentExercise {} = none ∧
     WorkoutsManager.logSet {} 1 10 20 5 = .ok {} ∧
     WorkoutsManager.nextExercise {} = (none, {}) ∧
     WorkoutsManager.previousExercise {} = (none, {}) ∧
     WorkoutsManager.finishSession {} 7 5 (.ok (some 1)) = (none, {}) ∧
     WorkoutsManager.isWorkoutComplete {} = false ∧
     WorkoutsManager.getSessionProgress {} = 0) :=
  ⟨rfl, c10_no_session_noops {} rfl 1 10 20 5 7 5 (.ok (some 1))⟩

/-- C2: while cloud mode is enabled, a Remote Store write failure makes the
whole `add` call fail — the rejection propagates and the adapter state
(hence the Local Store) is completely unchanged, so the mirror write was
never attempted and no local record exists whose remote counterpart was
rejected. -/
theorem c2_remote_failure_fails_add_without_mirror (a : Adapter)
    (s : StoreName) (data : JObj) (now : Nat)
    (hf : a.useFirebase = true) (hm : a.firebaseModule = true)
    (hfail : a.remote.failOn s = true) :
    database.addOp a s data now = (.error (), a) := by
  simp [database.addOp, database.getDBIsRemote, hf, hm, RemoteDB.addOp, hfail]

/-- Witness for C2 on an adapter whose remote `users` collection rejects
writes. -/
theorem c2_witness :
    remoteRejectAdapter.useFirebase = true ∧
    remoteRejectAdapter.firebaseModule = true ∧
    remoteRejectAdapter.remote.failOn .users = true ∧
    database.addOp remoteRejectAdapter .users {} 0 = (.error (), remoteRejectAdapter) :=
  ⟨rfl, rfl, rfl,
   c2_remote_failure_fails_add_without_mirror remoteRejectAdapter .users {} 0 rfl rfl rfl⟩

/-- C1: the claim says a Local Store mirror-write failure after a
successful Remote Store write is logged and swallowed and the overall
`add`/`update` call still resolves; the code has no try/catch around the
mirror writes, so the call REJECTS even though the remote write persisted.
At `mirrorFailAdapter` (local `users` store rejecting writes): `add`
rejects while the remote collection has grown by one document, and
`update` rejects while the remote document was updated. -/
theorem c1_mirror_failure_rejects_call :
    (database.addOp mirrorFailAdapter .users {} 0).1 = .error () ∧
    ((database.addOp mirrorFailAdapter .users {} 0).2.remote.docs .users).length = 2 ∧
    (database.updateOp mirrorFailAdapter .users ⟨some 5, .null, 0, none, none⟩ 0).1
      = .error () ∧
    (database.updateOp mirrorFailAdapter .users ⟨some 5, .null, 0, none, none⟩ 0).2.remote.docs
        .users = [⟨"5", ⟨some 5, .null, 0, none, some 0⟩⟩] :=
  ⟨rfl, rfl, rfl, rfl⟩

/-- C6 counterexample: the claim says that when the History write throws,
`finishSession` leaves the in-memory session state unchanged; in fact the
session object is mutated in place (`endTime`, `userId`, stats) before the
write is attempted, so after the failed write `workoutSession` differs from
its pre-call value (the call does return `null`). -/
theorem c6_counterexample_session_mutated :
    (WorkoutsManager.finishSession c6mgr 1 60000 (.error ())).1 = none ∧
    (WorkoutsManager.finishSession c6mgr 1 60000 (.error ())).2.workoutSession
      ≠ c6mgr.workoutSession := by
  refine ⟨rfl, fun hcontra => ?_⟩
  have h2 := congrArg (fun o => o.map (fun s2 => s2.endTime)) hcontra
  simp [c6mgr, c6session, WorkoutsManager.finishSession,
    WorkoutsManager.finalizeStats] at h2

/-- C6 (amended): if the History write inside `finishSession` throws, the
call reports the error and returns `null`, and the session is NOT cleared —
`workoutSession` remains the in-place finalized session (same exercises and
logged sets; only the finish-time stamps `endTime`, `userId`,
`durationMinutes`, `totalSets`, `totalVolume` were written before the
attempt), and `currentWorkout` / `currentExerciseIndex` are untouched.
The session state is cleared only when the write succeeds. -/
theorem c6_failed_write_keeps_session (m : WorkoutsManager)
    (s : WorkoutSession) (u now hid : Nat)
    (h : m.workoutSession = some s) :
    WorkoutsManager.finishSession m u now (.error ())
      = (none, { m with workoutSession := some (WorkoutsManager.finalizeStats s u now) }) ∧
    (WorkoutsManager.finalizeStats s u now).exercises = s.exercises ∧
    (WorkoutsManager.finalizeStats s u now).startTime = s.startTime ∧
    WorkoutsManager.finishSession m u now (.ok (some hid))
      = (some { WorkoutsManager.finalizeStats s u now with id := some hid },
         { currentWorkout := none, workoutSession := none,
           currentExerciseIndex := 0 }) := by
  refine ⟨?_, rfl, rfl, ?_⟩ <;>
    simp [WorkoutsManager.finishSession, h]

/-- Witness for C6 (amended) at the concrete in-progress session. -/
theorem c6_witness :
    c6mgr.workoutSession = some c6session ∧
    (WorkoutsManager.finishSession c6mgr 1 60000 (.error ())
      = (none, { c6mgr with
                 workoutSession := some (WorkoutsManager.finalizeStats c6session 1 60000) }) ∧
     (WorkoutsManager.finalizeStats c6session 1 60000).exercises = c6session.exercises ∧
     (WorkoutsManager.finalizeStats c6session 1 60000).startTime = c6session.startTime ∧
     WorkoutsManager.finishSession c6mgr 1 60000 (.ok (some 9))
      = (some { WorkoutsManager.finalizeStats c6session 1 60000 with id := some 9 },
         { currentWorkout := none, workoutSession := none,
           currentExerciseIndex := 0 })) :=
  ⟨rfl, c6_failed_write_keeps_session c6mgr c6session 1 60000 9 rfl⟩


/-- C7: during an active session, `logSet` appends exactly one set log to
the current exercise and marks it completed exactly when its logged-set
count reaches its target `sets` count (under the invariant that an already
completed exercise has enough logged sets — true of every reachable state);
and `isWorkoutComplete` returns `true` iff every exercise of the session is
completed or skipped. -/
theorem c7_logSet_and_completion (m : WorkoutsManager) (s : WorkoutSession)
    (ex : SessionExercise) (sn : Nat) (rp : Int) (w : ℚ) (t : Nat)
    (hs : m.workoutSession = some s)
    (hex : s.exercises[m.currentExerciseIndex]? = some ex)
    (hinv : ex.completed = true → ex.sets ≤ ex.logsPerSet.length) :
    (∃ m2 s2 ex2,
      WorkoutsManager.logSet m sn rp w t = .ok m2 ∧
      m2.workoutSession = some s2 ∧
      s2.exercises[m.currentExerciseIndex]? = some ex2 ∧
      ex2.logsPerSet = ex.logsPerSet ++ [⟨sn, rp, w, t⟩] ∧
      ex2.setsCompleted = ex.logsPerSet.length + 1 ∧
      (ex2.completed = true ↔ ex.sets ≤ ex.logsPerSet.length + 1) ∧
      m2.currentExerciseIndex = m.currentExerciseIndex ∧
      m2.currentWorkout = m.currentWorkout) ∧
    (WorkoutsManager.isWorkoutComplete m = true ↔
      ∀ e ∈ s.exercises, e.completed = true ∨ e.skipped = true) := by
  constructor
  · have hlt : m.currentExerciseIndex < s.exercises.length :=
      (List.getElem?_eq_some.mp hex).1
    set ex2 : SessionExercise :=
      { ex with logsPerSet := ex.logsPerSet ++ [(⟨sn, rp, w, t⟩ : SetLog)],
                setsCompleted := (ex.logsPerSet ++ [(⟨sn, rp, w, t⟩ : SetLog)]).length,
                completed :=
                  if (ex.logsPerSet ++ [(⟨sn, rp, w, t⟩ : SetLog)]).length ≥ ex.sets
                  then true else ex.completed } with hex2
    set s2 : WorkoutSession :=
      { s with exercises := s.exercises.set m.currentExerciseIndex ex2 } with hs2
    refine ⟨{ m with workoutSession := some s2 }, s2, ex2, ?_, rfl, ?_, rfl,
      by simp [hex2], ?_, rfl, rfl⟩
    · simp only [WorkoutsManager.logSet, hs, hex, hs2, hex2]
    · exact List.getElem?_set_eq_of_lt _ hlt
    · by_cases hc : ex.sets ≤ ex.logsPerSet.length + 1
      · have hge : (ex.logsPerSet ++ [(⟨sn, rp, w, t⟩ : SetLog)]).length ≥ ex.sets := by
          simpa using hc
        simp [hex2, if_pos hge, hc]
      · have hge : ¬ (ex.logsPerSet ++ [(⟨sn, rp, w, t⟩ : SetLog)]).length ≥ ex.sets := by
          simpa using hc
        simp only [hex2, if_neg hge]
        constructor
        · intro hcomp
          have := hinv hcomp
          omega
        · intro hc2
          exact absurd hc2 hc
  · simp [WorkoutsManager.isWorkoutComplete, hs, List.all_eq_true, Bool.or_eq_true]

/-- Witness for C7 at a fresh one-exercise session (2 target sets, none
logged yet). -/
theorem c7_witness :
    freshSessionMgr.workoutSession = some freshSession ∧
    freshSession.exercises[freshSessionMgr.currentExerciseIndex]? = some freshExercise ∧
    (freshExercise.completed = true
      → freshExercise.sets ≤ freshExercise.logsPerSet.length) ∧
    ((∃ m2 s2 ex2,
      WorkoutsManager.logSet freshSessionMgr 1 10 20 5 = .ok m2 ∧
      m2.workoutSession = some s2 ∧
      s2.exercises[freshSessionMgr.currentExerciseIndex]? = some ex2 ∧
      ex2.logsPerSet = freshExercise.logsPerSet ++ [⟨1, 10, 20, 5⟩] ∧
      ex2.setsCompleted = freshExercise.logsPerSet.length + 1 ∧
      (ex2.completed = true ↔ freshExercise.sets ≤ freshExercise.logsPerSet.length + 1) ∧
      m2.currentExerciseIndex = freshSessionMgr.currentExerciseIndex ∧
      m2.currentWorkout = freshSessionMgr.currentWorkout) ∧
    (WorkoutsManager.isWorkoutComplete freshSessionMgr = true ↔
      ∀ e ∈ freshSession.exercises, e.completed = true ∨ e.skipped = true)) :=
  ⟨rfl, rfl, by decide,
   c7_logSet_and_completion freshSessionMgr freshSession freshExercise 1 10 20 5
     rfl rfl (by decide)⟩

/-- C8: `finishSession` computes `totalVolume` as Σ over exercises of
the sum of reps×weight over the logged sets of that exercise, and `totalSets` as the sum
of `setsCompleted` across exercises; on the worked example (logged sets
reps 10 × 20 kg and reps 8 × 25 kg) the session volume is 400. -/
theorem c8_volume_and_sets (m : WorkoutsManager) (s : WorkoutSession)
    (u now : Nat) (hid : Option Nat) (hs : m.workoutSession = some s) :
    (∃ out, (WorkoutsManager.finishSession m u now (.ok hid)).1 = some out ∧
      out.totalVolume = some ((s.exercises.map exVolume).sum) ∧
      out.totalSets = some ((s.exercises.map (fun ex => ex.setsCompleted)).sum)) ∧
    ((WorkoutsManager.finishSession volumeMgr 7 0 (.ok (some 1))).1.map
        (fun out => out.totalVolume)) = some (some 400) := by
  constructor
  · refine ⟨{ WorkoutsManager.finalizeStats s u now with id := hid }, ?_, ?_, ?_⟩
    · simp [WorkoutsManager.finishSession, hs]
    · simp [WorkoutsManager.finalizeStats, foldl_add_exvolume]
    · simp [WorkoutsManager.finalizeStats, foldl_add_sets]
  · simp [volumeMgr, volumeSession, WorkoutsManager.finishSession,
      WorkoutsManager.finalizeStats]
    norm_num

/-- Witness for C8 at the worked-example session. -/
theorem c8_witness :
    volumeMgr.workoutSession = some volumeSession ∧
    ((∃ out, (WorkoutsManager.finishSession volumeMgr 7 0 (.ok (some 1))).1 = some out ∧
      out.totalVolume = some ((volumeSession.exercises.map exVolume).sum) ∧
      out.totalSets
        = some ((volumeSession.exercises.map (fun ex => ex.setsCompleted)).sum)) ∧
    ((WorkoutsManager.finishSession volumeMgr 7 0 (.ok (some 1))).1.map
        (fun out => out.totalVolume)) = some (some 400)) :=
  ⟨rfl, c8_volume_and_sets volumeMgr volumeSession 7 0 (some 1) rfl⟩

/-- C4 counterexample: the claim says a failed Remote Store handshake
during `enableCloud` leaves `isCloudEnabled()` false.  `initFirebase` never
throws — it returns a success boolean — and the cloud-enabled revision of
`initDatabase` ignores it, so when the module import succeeds but the
handshake reports failure (`handshakeOk = false`), `enableCloud` still
turns cloud mode on: `isCloudEnabled()` returns `true`. -/
theorem c4_counterexample_handshake_failure_enables_cloud :
    ∃ a2, database.enableCloud offlineAdapter true true false = .ok a2 ∧
      database.isCloudEnabled a2 = true :=
  ⟨_, rfl, rfl⟩

/-- C4 (amended): if the Remote Store module import fails during
`enableCloud` (the failure mode the `catch` actually handles), `enableCloud`
does not throw, `isCloudEnabled()` subsequently returns `false`, and a
subsequent `add` succeeds against the Local Store only — the record is
appended locally with a generated key and the Remote Store is untouched. -/
theorem c4_import_failure_stays_local (a : Adapter) (s : StoreName)
    (data : JObj) (now : Nat) (hk : Bool)
    (hlf : a.localDB.failOn s = false) (hid : data.id = none) :
    ∃ a2, database.enableCloud a true false hk = .ok a2 ∧
      database.isCloudEnabled a2 = false ∧
      (database.addOp a2 s data now).1 = .ok (.num ((a.localDB.colls s).nextId)) ∧
      (database.addOp a2 s data now).2.remote = a.remote ∧
      ((database.addOp a2 s data now).2.localDB.colls s).recs
        = (a.localDB.colls s).recs
            ++ [{ data with
                  id := some ((a.localDB.colls s).nextId),
                  createdAt := some now }] := by
  refine ⟨{ a with
            cfg := { a.cfg with useCloud := true },
            localDB := { a.localDB with dbOpen := true },
            useFirebase := false }, ?_, rfl, ?_, ?_, ?_⟩
  · simp [database.enableCloud, database.initDatabase, LocalDB.initOp]
  all_goals
    simp [database.addOp, database.getDBIsRemote, LocalDB.addOp, hlf, hid,
      LocalDB.setColl]

/-- Witness for C4 (amended) at the fresh offline adapter. -/
theorem c4_witness :
    offlineAdapter.localDB.failOn .users = false ∧
    ({} : JObj).id = none ∧
    (∃ a2, database.enableCloud offlineAdapter true false true = .ok a2 ∧
      database.isCloudEnabled a2 = false ∧
      (database.addOp a2 .users {} 3).1
        = .ok (.num ((offlineAdapter.localDB.colls .users).nextId)) ∧
      (database.addOp a2 .users {} 3).2.remote = offlineAdapter.remote ∧
      ((database.addOp a2 .users {} 3).2.localDB.colls .users).recs
        = (offlineAdapter.localDB.colls .users).recs
            ++ [⟨some ((offlineAdapter.localDB.colls .users).nextId), .null, 0,
                  some 3, none⟩]) :=
  ⟨rfl, rfl, c4_import_failure_stays_local offlineAdapter .users {} 3 true rfl rfl⟩


/-- C3: with cloud mode on and every remote upload succeeding, one run of
`syncToCloud` resolves `true`, uploads exactly the local records lacking a
(truthy) `cloudId` — per collection the remote store grows by precisely the
documents for those records, in snapshot order — and rewrites each such
local record with its newly assigned `cloudId`; an immediately following
second run resolves `true` and changes nothing (zero uploads). -/
theorem c3_sync_exact_and_idempotent (a : Adapter) (now now2 : Nat)
    (hf : a.useFirebase = true) (hm : a.firebaseModule = true)
    (hdb : a.localDB.dbOpen = true)
    (hlf : ∀ s, a.localDB.failOn s = false)
    (hrf : ∀ s, a.remote.failOn s = false)
    (hwf : ∀ s, (a.localDB.colls s).wfIds) :
    ∃ a1, database.syncToCloud a now = (true, a1) ∧
      (∀ s, ∃ refs : List String,
        (∀ c ∈ refs, jsTruthy (.str c) = true) ∧
        refs.length = (pendingOf (a.localDB.colls s).recs).length ∧
        (a1.localDB.colls s).recs = markSynced now refs (a.localDB.colls s).recs ∧
        a1.remote.docs s
          = a.remote.docs s ++ uploadDocs now refs (a.localDB.colls s).recs) ∧
      database.syncToCloud a1 now2 = (true, a1) := by
  obtain ⟨g1, g2, g3, g4, g5⟩ :=
    syncFold_spec now STORES a.localDB a.remote STORES_nodup hdb hlf hwf
  rcases hout : syncFold now STORES (a.localDB, a.remote) with ⟨l1, r1⟩
  rw [hout] at g1 g2 g3 g4 g5
  simp only at g1 g2 g3 g4 g5
  have heq := syncToCloud_eq a now hf hm
  rw [hout] at heq
  simp only at heq
  refine ⟨{ a with localDB := l1, remote := r1 }, heq, ?_, ?_⟩
  · intro s
    obtain ⟨_, hok⟩ := g5 s (mem_STORES s)
    obtain ⟨refs, p1, p2, p3, p4⟩ := hok (hrf s)
    exact ⟨refs, p1, p2, congrArg Collection.recs p3, p4⟩
  · have htr : ∀ s, ∀ i ∈ (l1.colls s).recs, jsTruthy i.cloudId = true := by
      intro s i hi
      obtain ⟨_, hok⟩ := g5 s (mem_STORES s)
      obtain ⟨refs, p1, p2, p3, _⟩ := hok (hrf s)
      rw [congrArg Collection.recs p3] at hi
      exact markSynced_all_truthy now _ refs p2 p1 i hi
    have hfold2 : syncFold now2 STORES (l1, r1) = (l1, r1) :=
      syncFold_allSynced now2 STORES l1 r1 htr
    have heq2 := syncToCloud_eq { a with localDB := l1, remote := r1 } now2 hf hm
    rw [heq2]
    simp only
    rw [hfold2]

/-- Witness for C3 at `syncAdapter` (one pending and one synced record in
`users`, one pending record in `workouts`). -/
theorem c3_witness :
    syncAdapter.useFirebase = true ∧
    syncAdapter.firebaseModule = true ∧
    syncAdapter.localDB.dbOpen = true ∧
    (∀ s, syncAdapter.localDB.failOn s = false) ∧
    (∀ s, syncAdapter.remote.failOn s = false) ∧
    (∀ s, (syncAdapter.localDB.colls s).wfIds) ∧
    (∃ a1, database.syncToCloud syncAdapter 5 = (true, a1) ∧
      (∀ s, ∃ refs : List String,
        (∀ c ∈ refs, jsTruthy (.str c) = true) ∧
        refs.length = (pendingOf (syncAdapter.localDB.colls s).recs).length ∧
        (a1.localDB.colls s).recs
          = markSynced 5 refs (syncAdapter.localDB.colls s).recs ∧
        a1.remote.docs s
          = syncAdapter.remote.docs s
              ++ uploadDocs 5 refs (syncAdapter.localDB.colls s).recs) ∧
      database.syncToCloud a1 6 = (true, a1)) :=
  ⟨rfl, rfl, rfl, by decide, by decide, by decide,
   c3_sync_exact_and_idempotent syncAdapter 5 6 rfl rfl rfl (by decide) (by decide)
     (by decide)⟩

/-- C9: an error while syncing one collection is caught and the loop
continues with the remaining collections: `syncToCloud` still resolves
`true`; collections whose remote writes fail are left untouched, and every
collection whose remote writes succeed is fully reconciled regardless of
failures in the other collections. -/
theorem c9_sync_swallows_collection_failures (a : Adapter) (now : Nat)
    (hf : a.useFirebase = true) (hm : a.firebaseModule = true)
    (hdb : a.localDB.dbOpen = true)
    (hlf : ∀ s, a.localDB.failOn s = false)
    (hwf : ∀ s, (a.localDB.colls s).wfIds) :
    (database.syncToCloud a now).1 = true ∧
    (∀ s, a.remote.failOn s = true →
      (database.syncToCloud a now).2.localDB.colls s = a.localDB.colls s ∧
      (database.syncToCloud a now).2.remote.docs s = a.remote.docs s) ∧
    (∀ s, a.remote.failOn s = false →
      ∃ refs : List String,
        (∀ c ∈ refs, jsTruthy (.str c) = true) ∧
        refs.length = (pendingOf (a.localDB.colls s).recs).length ∧
        ((database.syncToCloud a now).2.localDB.colls s).recs
          = markSynced now refs (a.localDB.colls s).recs ∧
        (database.syncToCloud a now).2.remote.docs s
          = a.remote.docs s ++ uploadDocs now refs (a.localDB.colls s).recs) := by
  obtain ⟨g1, g2, g3, g4, g5⟩ :=
    syncFold_spec now STORES a.localDB a.remote STORES_nodup hdb hlf hwf
  rcases hout : syncFold now STORES (a.localDB, a.remote) with ⟨l1, r1⟩
  rw [hout] at g1 g2 g3 g4 g5
  simp only at g1 g2 g3 g4 g5
  have heq := syncToCloud_eq a now hf hm
  rw [hout] at heq
  simp only at heq
  rw [heq]
  refine ⟨rfl, ?_, ?_⟩
  · intro s hfail
    obtain ⟨hbad, _⟩ := g5 s (mem_STORES s)
    exact hbad hfail
  · intro s hok
    obtain ⟨_, hgood⟩ := g5 s (mem_STORES s)
    obtain ⟨refs, p1, p2, p3, p4⟩ := hgood hok
    exact ⟨refs, p1, p2, congrArg Collection.recs p3, p4⟩

/-- Witness for C9 at `syncFailAdapter`, whose remote `workouts` collection
rejects writes while `users` succeeds. -/
theorem c9_witness :
    syncFailAdapter.useFirebase = true ∧
    syncFailAdapter.firebaseModule = true ∧
    syncFailAdapter.localDB.dbOpen = true ∧
    (∀ s, syncFailAdapter.localDB.failOn s = false) ∧
    (∀ s, (syncFailAdapter.localDB.colls s).wfIds) ∧
    ((database.syncToCloud syncFailAdapter 5).1 = true ∧
    (∀ s, syncFailAdapter.remote.failOn s = true →
      (database.syncToCloud syncFailAdapter 5).2.localDB.colls s
        = syncFailAdapter.localDB.colls s ∧
      (database.syncToCloud syncFailAdapter 5).2.remote.docs s
        = syncFailAdapter.remote.docs s) ∧
    (∀ s, syncFailAdapter.remote.failOn s = false →
      ∃ refs : List String,
        (∀ c ∈ refs, jsTruthy (.str c) = true) ∧
        refs.length = (pendingOf (syncFailAdapter.localDB.colls s).recs).length ∧
        ((database.syncToCloud syncFailAdapter 5).2.localDB.colls s).recs
          = markSynced 5 refs (syncFailAdapter.localDB.colls s).recs ∧
        (database.syncToCloud syncFailAdapter 5).2.remote.docs s
          = syncFailAdapter.remote.docs s
              ++ uploadDocs 5 refs (syncFailAdapter.localDB.colls s).recs)) :=
  ⟨rfl, rfl, rfl, by decide, by decide,
   c9_sync_swallows_collection_failures syncFailAdapter 5 rfl rfl rfl (by decide)
     (by decide)⟩

end GymFlow
